import Mathlib

/-
  Verification development for the Clipthing repository.

  The embedding models the two components the claims are about:
  the activation-maximization engine in src/feature_visualizer.py
  (classes NeuronActivationHook and FeatureVisualizer) and the
  introspection utility in src/layer_inspector.py (class LayerInspector).

  Modelling conventions:
  - Tensor values are exact rationals; torch works in floating point, but
    every claim settled here is about control flow, shapes, error paths,
    determinism or the trunc/round distinction, none of which depends on
    float rounding of the constants involved.
  - A dotted layer path such as visual.conv1 is modelled as the list of its
    components, i.e. the result of the split on the dot character performed
    by FeatureVisualizer._get_layer_by_name; PyTorch forbids dots inside
    submodule names, so the two representations are in bijection.
  - torch's global generator is modelled as a Nat state threaded through the
    run; torch.manual_seed resets it from the seed.  The concrete
    pseudo-random values are produced by a congruential generator: only
    determinism of the draws matters to the claims, not their distribution.
-/

attribute [local semireducible] Rat.add Rat.mul Rat.sub Rat.inv

namespace Clipthing

/-- Arithmetic mean of a list of rationals, the model of torch mean on the
listed elements.  On an empty list it returns 0 where torch would produce
NaN; no claim evaluates a mean of an empty slice. -/
def qmean (xs : List ℚ) : ℚ := xs.sum / xs.length

/-- Per-channel ImageNet-style means hard-coded in FeatureVisualizer
(0.48145466, 0.4578275, 0.40821073). -/
def clipMean : Nat → ℚ
  | 0 => mkRat 48145466 100000000
  | 1 => mkRat 4578275 10000000
  | _ => mkRat 40821073 100000000

/-- Per-channel standard deviations hard-coded in FeatureVisualizer
(0.26862954, 0.26130258, 0.27577711). -/
def clipStd : Nat → ℚ
  | 0 => mkRat 26862954 100000000
  | 1 => mkRat 26130258 100000000
  | _ => mkRat 27577711 100000000

/-- A torch tensor: shape, row-major flattened data, and the autograd flag.
The requiresGrad field records whether the tensor is connected to a gradient
graph rooted at a leaf that requires grad; torch.no_grad produces tensors
with this flag cleared, and Tensor.backward raises a RuntimeError when the
flag is false. -/
structure Tensor where
  shape : List Nat
  data : List ℚ
  requiresGrad : Bool
deriving DecidableEq

/-- A zero-dimensional tensor holding one scalar, the result of the mean
reductions in NeuronActivationHook.get_activation_value. -/
structure ScalarT where
  val : ℚ
  requiresGrad : Bool
deriving DecidableEq

/-- The failures generate_image can raise:
layerNotFound is the ValueError raised when the layer path does not resolve;
indexOut is the IndexError raised by tensor indexing with an out-of-range
unit index; noGrad is the RuntimeError raised by loss.backward() when the
loss tensor does not require grad and has no grad_fn. -/
inductive VisError where
  | layerNotFound
  | indexOut
  | noGrad
deriving DecidableEq

/-- Decidable equality for Except results, so that concrete runs can be
checked by evaluation. -/
instance exceptDecEq {e a : Type} [DecidableEq e] [DecidableEq a] :
    DecidableEq (Except e a) := fun x y =>
  match x, y with
  | .error e1, .error e2 =>
    if h : e1 = e2 then isTrue (by rw [h])
    else isFalse (by intro hc; injection hc; exact h (by assumption))
  | .error _, .ok _ => isFalse (by intro hc; exact Except.noConfusion hc)
  | .ok _, .error _ => isFalse (by intro hc; exact Except.noConfusion hc)
  | .ok a1, .ok a2 =>
    if h : a1 = a2 then isTrue (by rw [h])
    else isFalse (by intro hc; injection hc; exact h (by assumption))

/-- Elements of channel i of a flattened (B, C, H, W) tensor, area = H*W:
the model of indexing activation[:, i, :, :]. -/
def sliceChannel (ds : List ℚ) (chans area i : Nat) : List ℚ :=
  (ds.enum.filter (fun p => p.1 / area % chans == i)).map Prod.snd

/-- Elements of feature column i of a flattened (B, F) tensor: the model of
indexing activation[:, i]. -/
def sliceFeature (ds : List ℚ) (feats i : Nat) : List ℚ :=
  (ds.enum.filter (fun p => p.1 % feats == i)).map Prod.snd

/-- NeuronActivationHook.get_activation_value.  The hook's captured value is
the argument; None means the hooked layer was never executed, in which case
the source returns torch.tensor(0.0), a fresh constant with no grad graph.
For a rank-4 capture the channel axis is indexed (IndexError when the index
is out of range) or averaged, for rank-2 the feature axis likewise; any
other rank falls through both branches and the source returns
activation.mean() over all elements, ignoring the neuron index.  Indexing
then final .mean() together average the selected slice, and .mean() over a
mean over dim 1 of equal-sized channel slices equals the global mean of the
data, which is how the index-free branches are rendered here. -/
def getActivationValue (captured : Option Tensor) (neuronIndex : Option Nat) :
    Except VisError ScalarT :=
  match captured with
  | none => .ok ⟨0, false⟩
  | some t =>
    match t.shape with
    | [_b, c, h, w] =>
      match neuronIndex with
      | some i =>
        if i < c then .ok ⟨qmean (sliceChannel t.data c (h * w) i), t.requiresGrad⟩
        else .error .indexOut
      | none => .ok ⟨qmean t.data, t.requiresGrad⟩
    | [_b, f] =>
      match neuronIndex with
      | some i =>
        if i < f then .ok ⟨qmean (sliceFeature t.data f i), t.requiresGrad⟩
        else .error .indexOut
      | none => .ok ⟨qmean t.data, t.requiresGrad⟩
    | _ => .ok ⟨qmean t.data, t.requiresGrad⟩

/-- The isinstance checks performed by LayerInspector.get_neuron_names:
nn.Linear, nn.Conv2d, or anything else. -/
inductive LayerKind where
  | linear
  | conv2d
  | other
deriving DecidableEq

/-- The attributes of one nn.Module that the repository reads:
out_features and out_channels when declared, the shape of the weight tensor
when a weight is present, the training flag toggled by eval(), and the
requires_grad flag of each parameter owned directly by the module. -/
structure LayerMeta where
  kind : LayerKind
  outFeatures : Option Nat
  outChannels : Option Nat
  weightShape : Option (List Nat)
  training : Bool
  paramGrads : List Bool
deriving DecidableEq

/-- An nn.Module tree: its own attributes plus the named child modules in
registration order.  Child lookup by name models getattr, which for these
objects is served from the registered-submodule table. -/
inductive NetModule where
  | mk (info : LayerMeta) (children : List (String × NetModule))

def NetModule.info : NetModule → LayerMeta
  | .mk i _ => i

def NetModule.children : NetModule → List (String × NetModule)
  | .mk _ cs => cs

/-- getattr(module, name) restricted to registered child modules. -/
def getChild (m : NetModule) (name : String) : Option NetModule :=
  (m.children.find? (fun p => p.1 == name)).map Prod.snd

/-- FeatureVisualizer._get_layer_by_name: split the dotted path and walk the
attribute chain from the model root, None as soon as a component is
missing. -/
def getLayerByName (m : NetModule) (path : List String) : Option NetModule :=
  path.foldl (fun acc part => acc.bind (fun cur => getChild cur part)) (some m)

mutual

/-- nn.Module.named_modules: the module itself under the empty name followed
by every descendant under its dotted path.  The source's memo-based
deduplication is the identity on a tree, where no module object is shared. -/
def namedModules : NetModule → List (List String × NetModule)
  | .mk i cs => ([], .mk i cs) :: namedModulesList cs

def namedModulesList : List (String × NetModule) → List (List String × NetModule)
  | [] => []
  | (n, c) :: rest =>
    (namedModules c).map (fun pm => (n :: pm.1, pm.2)) ++ namedModulesList rest

end

/-- name.startswith of a one-character pattern: the first character of the
string equals it.  Rendered on the character list of the string rather
than through String.startsWith, whose iterator loop does not reduce inside
the kernel. -/
def headIsUnderscore (n : String) : Bool :=
  match n.data with
  | [] => false
  | ch :: _ => ch == '_'

/-- The filter in LayerInspector._extract_layers: the dotted name must be
non-empty and must not start with an underscore (startswith on the dotted
string tests the first character, i.e. the first component's first
character). -/
def keepName : List String → Bool
  | [] => false
  | n :: _ => !(headIsUnderscore n)

/-- LayerInspector._extract_layers: iterate model.visual.named_modules(),
keep the admissible names and key each module under visual. followed by its
name.  A model without a visual attribute would raise before reaching the
loop; the claims only exercise models that have one. -/
def extractLayers (model : NetModule) : List (List String × NetModule) :=
  match getChild model "visual" with
  | none => []
  | some vis =>
    ((namedModules vis).filter (fun pm => keepName pm.1)).map
      (fun pm => ("visual" :: pm.1, pm.2))

/-- LayerInspector.get_layer_names returns the sorted key list of the layer
table.  sorted() only permutes the list, and every claim about it is a
membership statement, so the permutation is omitted here. -/
def getLayerNames (model : NetModule) : List (List String) :=
  (extractLayers model).map Prod.fst

/-- LayerInspector.get_layer: dictionary lookup in the extracted table. -/
def inspGetLayer (layers : List (List String × NetModule)) (path : List String) :
    Option NetModule :=
  (layers.find? (fun pm => pm.1 == path)).map Prod.snd

/-- LayerInspector.get_neuron_names: resolve the layer ([] when unknown),
count units from out_features and otherwise from the weight's leading
dimension, return [] for a zero count, then render names by kind: neuron_i
for nn.Linear, channel_i over out_channels for nn.Conv2d, and unit_i capped
at 768 for anything else. -/
def neuronNamesOf (info : LayerMeta) : List String :=
  let numNeurons : Nat :=
    match info.outFeatures with
    | some f => f
    | none =>
      match info.weightShape with
      | some (d :: _) => d
      | _ => 0
  if numNeurons = 0 then []
  else
    match info.kind with
    | .linear => (List.range numNeurons).map (fun i => "neuron_" ++ toString i)
    | .conv2d =>
      let channels := info.outChannels.getD numNeurons
      (List.range channels).map (fun i => "channel_" ++ toString i)
    | .other => (List.range (min numNeurons 768)).map (fun i => "unit_" ++ toString i)

def getNeuronNames (layers : List (List String × NetModule)) (path : List String) :
    List String :=
  match inspGetLayer layers path with
  | none => []
  | some layer => neuronNamesOf layer.info

mutual

/-- Well-formedness of a module tree as PyTorch guarantees it: registered
child names are unique within each module (they live in a dict). -/
def wfModule : NetModule → Bool
  | .mk _ cs => decide ((cs.map Prod.fst).Nodup) && wfModuleList cs

def wfModuleList : List (String × NetModule) → Bool
  | [] => true
  | (_, c) :: rest => wfModule c && wfModuleList rest

end

mutual

/-- The mutation FeatureVisualizer.__init__ performs on the supplied model:
model.eval() clears the training flag on every module of the tree, and the
loop over model.parameters() clears requires_grad on every parameter.  The
device move by to(device) relocates storage and is not observable in this
model. -/
def fvInit : NetModule → NetModule
  | .mk i cs =>
    .mk { i with training := false, paramGrads := i.paramGrads.map (fun _ => false) }
      (fvInitList cs)

def fvInitList : List (String × NetModule) → List (String × NetModule)
  | [] => []
  | (n, c) :: rest => (n, fvInit c) :: fvInitList rest

end

mutual

/-- Erases exactly the two attributes __init__ mutates, the training flags
and the parameter requires_grad flags, leaving every other attribute and
the tree structure intact; used to state that nothing else changes. -/
def clearMutables : NetModule → NetModule
  | .mk i cs =>
    .mk { i with training := false, paramGrads := i.paramGrads.map (fun _ => false) }
      (clearMutablesList cs)

def clearMutablesList : List (String × NetModule) → List (String × NetModule)
  | [] => []
  | (n, c) :: rest => (n, clearMutables c) :: clearMutablesList rest

end

mutual

/-- True when every module of the tree is in eval mode with all parameter
requires_grad flags cleared. -/
def allFrozen : NetModule → Bool
  | .mk i cs => !i.training && i.paramGrads.all (fun g => !g) && allFrozenList cs

def allFrozenList : List (String × NetModule) → Bool
  | [] => true
  | (_, c) :: rest => allFrozen c && allFrozenList rest

end

/-- The engine configuration of generate_image: image_size, num_iterations,
learning_rate, blur_every and the optional seed.  The progress callback is
purely observational (the source never reads its result) and is omitted. -/
structure VisConfig where
  imageSize : Nat
  numIterations : Nat
  learningRate : ℚ
  blurEvery : Nat
  seed : Option Nat
deriving DecidableEq

/-- The mutable ambient state generate_image touches: the global torch
generator and the number of forward hooks currently installed on the
model.  np.random.seed is also called but the numpy generator is never
consumed by this module. -/
structure GenState where
  rng : Nat
  installCount : Nat
deriving DecidableEq

/-- A congruential step standing in for torch's generator transition. -/
def lcg (s : Nat) : Nat := (s * 1103515245 + 12345) % 2147483648

/-- n pseudo-random draws in [-1, 1] plus the advanced generator state;
stands in for consuming torch.randn values. -/
def randStream : Nat → Nat → List ℚ × Nat
  | 0, s => ([], s)
  | n + 1, s =>
    let s1 := lcg s
    let pr := randStream n s1
    ((mkRat (s1 % 2001) 1000 - 1) :: pr.1, pr.2)

/-- torch.manual_seed: the generator state becomes a function of the seed
alone. -/
def manualSeed (s : Nat) : Nat := s

/-- torch.randn(1, 3, size, size, requires_grad=True): the synthetic image
the optimizer mutates, drawn from the global generator. -/
def torchRandn (size : Nat) (s : Nat) : Tensor × Nat :=
  let pr := randStream (3 * size * size) s
  (⟨[1, 3, size, size], pr.1, true⟩, pr.2)

/-- Pixel (c, i, j) of a flattened (1, C, H, W) tensor. -/
def atPix (t : Tensor) (c i j h w : Nat) : ℚ :=
  t.data.getD ((c * h + i) * w + j) 0

/-- transforms.Normalize with the per-channel constants: subtract the mean
and divide by the std of the channel an element belongs to. -/
def normalizeT (t : Tensor) : Tensor :=
  match t.shape with
  | [_b, _c, h, w] =>
    { t with
      data := t.data.enum.map
        (fun p => (p.2 - clipMean (p.1 / (h * w))) / clipStd (p.1 / (h * w))) }
  | _ => t

/-- Evaluation of self.model.visual under the with torch.no_grad() block of
generate_image.  The opaque network is a function from the normalized image
to the output the hooked layer produces during that forward pass, none when
the hooked layer is not executed by the visual forward.  no_grad evaluation
detaches everything it computes from the autograd graph, so whatever the
hook captures has its requiresGrad flag cleared. -/
def noGradEval (visualForward : Tensor → Option Tensor) (x : Tensor) : Option Tensor :=
  (visualForward x).map (fun t => { t with requiresGrad := false })

/-- FeatureVisualizer._total_variation: mean absolute horizontal difference
plus mean absolute vertical difference, no wraparound. -/
def totalVariation (t : Tensor) : ℚ :=
  match t.shape with
  | [_b, cN, h, w] =>
    let d1 := (List.range cN).flatMap (fun c =>
      (List.range h).flatMap (fun i =>
        (List.range (w - 1)).map (fun j =>
          |atPix t c i j h w - atPix t c i (j + 1) h w|)))
    let d2 := (List.range cN).flatMap (fun c =>
      (List.range (h - 1)).flatMap (fun i =>
        (List.range w).map (fun j =>
          |atPix t c i j h w - atPix t c (i + 1) j h w|)))
    qmean d1 + qmean d2
  | _ => 0

/-- The in-place update image.data -= 0.01 * tv_loss: the scalar broadcasts
over every element. -/
def tvStep (t : Tensor) : Tensor :=
  let tv := totalVariation t
  { t with data := t.data.map (fun v => v - mkRat 1 100 * tv) }

/-- Pixel lookup with zero padding outside the image. -/
def atPixPad (t : Tensor) (h w : Nat) (c : Nat) (i j : Int) : ℚ :=
  if 0 ≤ i ∧ i < (h : Int) ∧ 0 ≤ j ∧ j < (w : Int) then atPix t c i.toNat j.toNat h w
  else 0

/-- FeatureVisualizer._apply_blur with the default kernel size 3:
F.avg_pool2d(kernel 3, stride 1, padding 1), whose default counts the
padded zeros, i.e. each output element is the sum of the 3 by 3 window
(zeros outside) divided by 9. -/
def applyBlur (t : Tensor) : Tensor :=
  match t.shape with
  | [b, cN, h, w] =>
    { t with
      data := (List.range (b * cN * h * w)).map (fun k =>
        let c := k / (h * w) % cN
        let i := k / w % h
        let j := k % w
        (([-1, 0, 1] : List Int).flatMap (fun di =>
          ([-1, 0, 1] : List Int).map (fun dj =>
            atPixPad t h w c ((i : Int) + di) ((j : Int) + dj)))).sum / 9) }
  | _ => t

/-- image.data.clamp_(-2.0, 2.0). -/
def clampT (t : Tensor) : Tensor :=
  { t with data := t.data.map (fun v => max (-2) (min 2 v)) }

/-- One optimizer.step() of the torch.optim.Adam instance owned by the run.
Adam is a deterministic function of its internal moment state and the
gradient, but its bias-corrected square-root arithmetic has no exact
rational form, so the step is modelled as a deterministic shape-preserving
surrogate update.  Every loop iteration of the source fails at
loss.backward() before optimizer.step() is reached, because the forward
pass runs under torch.no_grad and the captured activation never requires
grad; the theorems below prove that, so no claim depends on the value this
update produces, only on its determinism and shape. -/
def adamStepModel (lr : ℚ) (t : Tensor) : Tensor :=
  { t with data := t.data.map (fun v => v - lr) }

/-- The loop body of generate_image, iterated num_iterations times.
Per iteration: normalize the image, evaluate self.model.visual under
torch.no_grad (the hook keeps its previous capture when the layer is not
executed), read the activation scalar from the hook, form loss as the
negated activation, and call loss.backward(), which raises RuntimeError
when the loss has no grad graph; only then would the optimizer step, the
total-variation update, the periodic blur (1-indexed, when
(iteration+1) mod blur_every = 0) and the clamp to [-2, 2] run.  blur_every
equal to 0 would raise ZeroDivisionError in the source; Nat mod by 0 is the
identity here and no claim exercises it. -/
def runLoop (visualForward : Tensor → Option Tensor) (neuronIndex : Option Nat)
    (cfg : VisConfig) :
    Nat → Nat → Tensor → Option Tensor → Except VisError Tensor
  | 0, _, img, _ => .ok img
  | n + 1, iter, img, hookAct =>
    let normalized := normalizeT img
    let hookAct' := match noGradEval visualForward normalized with
      | some t => some t
      | none => hookAct
    match getActivationValue hookAct' neuronIndex with
    | .error e => .error e
    | .ok act =>
      let loss : ScalarT := ⟨-act.val, act.requiresGrad⟩
      if loss.requiresGrad then
        let img1 := adamStepModel cfg.learningRate img
        let img2 := tvStep img1
        let img3 := if (iter + 1) % cfg.blurEvery = 0 then applyBlur img2 else img2
        let img4 := clampT img3
        runLoop visualForward neuronIndex cfg n (iter + 1) img4 hookAct'
      else .error .noGrad

/-- min(1, max(0, v)): torch.clamp(x, 0, 1). -/
def clamp01 (v : ℚ) : ℚ := min 1 (max 0 v)

/-- Conversion of a non-negative rational to a byte the way
astype(np.uint8) converts a float in range: truncation toward zero. -/
def truncByte (x : ℚ) : Nat := x.num.toNat / x.den

/-- One output byte of _tensor_to_image: denormalize (multiply by the
channel std, add the channel mean), clamp to [0, 1], scale by 255 and
truncate. -/
def pixelByte (v : ℚ) (c : Nat) : Nat := truncByte (clamp01 (v * clipStd c + clipMean c) * 255)

/-- FeatureVisualizer._tensor_to_image: squeeze the batch axis, permute to
channel-last (H, W, C), denormalize with the same constants, clamp to
[0, 1], multiply by 255 and convert to uint8 by truncation.  The result is
the flattened row-major channel-last byte buffer. -/
def tensorToImage (t : Tensor) : List Nat :=
  match t.shape with
  | [_b, cN, h, w] =>
    (List.range (h * w * cN)).map (fun k =>
      let c := k % cN
      let p := k / cN
      pixelByte (atPix t c (p / w) (p % w) h w) c)
  | _ => []

/-- FeatureVisualizer.generate_image.  In source order: seed the global
generators when a seed is given, draw the synthetic image from the global
generator, build the optimizer, resolve the layer path (ValueError when it
does not resolve), install the forward hook, run the loop inside try with
handle.remove() in finally, and convert the final tensor exactly once. -/
def generateImage (model : NetModule) (visualForward : Tensor → Option Tensor)
    (layerPath : List String) (neuronIndex : Nat) (cfg : VisConfig) (st : GenState) :
    Except VisError (List Nat) × GenState :=
  let rng0 := match cfg.seed with
    | some s => manualSeed s
    | none => st.rng
  let ir := torchRandn cfg.imageSize rng0
  match getLayerByName model layerPath with
  | none => (.error .layerNotFound, { st with rng := ir.2 })
  | some _ =>
    let stIn : GenState := { rng := ir.2, installCount := st.installCount + 1 }
    let res := runLoop visualForward (some neuronIndex) cfg cfg.numIterations 0 ir.1 none
    let stOut : GenState := { stIn with installCount := stIn.installCount - 1 }
    match res with
    | .error e => (.error e, stOut)
    | .ok tFinal => (.ok (tensorToImage tFinal), stOut)

/-- The output-axis size in the words of the spec: out_features,
out_channels, or the raw weight's leading dimension, in that priority
order. -/
def declaredAxisSize (i : LayerMeta) : Option Nat :=
  match i.outFeatures with
  | some f => some f
  | none =>
    match i.outChannels with
    | some c => some c
    | none =>
      match i.weightShape with
      | some (d :: _) => some d
      | _ => none

/-- listUnits in the words of the spec and of the claim: as many names as
the declared output-axis size, neuron_i for dense layers, channel_i for
convolutional layers, unit_i capped at 768 entries for anything else, and
empty when no axis size is declared. -/
def listUnitsSpec (i : LayerMeta) : List String :=
  match declaredAxisSize i with
  | none => []
  | some a =>
    match i.kind with
    | .linear => (List.range a).map (fun k => "neuron_" ++ toString k)
    | .conv2d => (List.range a).map (fun k => "channel_" ++ toString k)
    | .other => (List.range (min a 768)).map (fun k => "unit_" ++ toString k)

/-- The attribute combinations PyTorch layers actually present, assumed by
the unit-listing equivalence: an nn.Linear declares out_features; an
nn.Conv2d declares no out_features but declares out_channels; and any
module declaring out_channels (the convolution family) has a weight whose
leading dimension equals it. -/
def layerRepresentable (i : LayerMeta) : Bool :=
  (match i.kind with
   | .linear => i.outFeatures.isSome
   | .conv2d => i.outFeatures == none && i.outChannels.isSome
   | .other => true) &&
  (match i.outChannels with
   | none => true
   | some c =>
     match i.weightShape with
     | some (d :: _) => c == d
     | _ => false)

/-- _tensor_to_image as the spec words it, with round in place of the
truncation the source performs; kept only to compare against
tensorToImage.  Rounding is modelled as floor of x + 1/2; the
counterexample below is far from a tie, so the tie convention is
immaterial. -/
def roundByte (x : ℚ) : Nat := truncByte (x + mkRat 1 2)

def pixelByteRounded (v : ℚ) (c : Nat) : Nat :=
  roundByte (clamp01 (v * clipStd c + clipMean c) * 255)

def tensorToImageRoundedSpec (t : Tensor) : List Nat :=
  match t.shape with
  | [_b, cN, h, w] =>
    (List.range (h * w * cN)).map (fun k =>
      let c := k % cN
      let p := k / cN
      pixelByteRounded (atPix t c (p / w) (p % w) h w) c)
  | _ => []

/-- A concrete convolution layer for the witnesses: 2 output channels,
weight of shape (2, 3, 3, 3), one frozen parameter. -/
def demoConv : NetModule :=
  .mk ⟨.conv2d, none, some 2, some [2, 3, 3, 3], false, [true]⟩ []

/-- A concrete visual trunk holding the convolution under the name conv1. -/
def demoVisual : NetModule :=
  .mk ⟨.other, none, none, none, true, []⟩ [("conv1", demoConv)]

/-- A concrete model with a visual branch and a text-side child that the
layer table never lists. -/
def demoModel : NetModule :=
  .mk ⟨.other, none, none, none, true, [true]⟩
    [("visual", demoVisual), ("transformer", .mk ⟨.other, none, none, none, true, []⟩ [])]

/-- The resolvable path of the demo convolution. -/
def demoPath : List String := ["visual", "conv1"]

/-- A visual forward in which the hooked layer is never executed. -/
def demoFwdNone : Tensor → Option Tensor := fun _ => none

/-- A rank-2 captured output (batch 1, 2 features) that requires grad
before the no_grad wrapper strips it. -/
def demoT2 : Tensor := ⟨[1, 2], [mkRat 1 1, mkRat 3 1], true⟩

/-- A visual forward whose hooked layer always emits demoT2. -/
def demoFwdR2 : Tensor → Option Tensor := fun _ => some demoT2

/-- A rank-3 captured output (sequence length 2, batch 1, width 2), the
shape a transformer block of the target network actually produces. -/
def demoT3 : Tensor := ⟨[2, 1, 2], [mkRat 1 1, mkRat 2 1, mkRat 3 1, mkRat 6 1], false⟩

/-- A visual forward whose hooked layer always emits demoT3. -/
def demoFwdR3 : Tensor → Option Tensor := fun _ => some demoT3

/-- Zero iterations, zero image size, seed 0. -/
def cfgZero : VisConfig := ⟨0, 0, mkRat 1 100, 10, some 0⟩

/-- One iteration, zero image size, seed 0. -/
def cfgOne : VisConfig := ⟨0, 1, mkRat 1 100, 10, some 0⟩

/-- Zero iterations, image size 1, seed 0: the smallest run that returns a
non-empty raster. -/
def cfgPix : VisConfig := ⟨1, 0, mkRat 1 100, 10, some 0⟩

/-- An ambient state with an arbitrary generator value and no hook
installed. -/
def stZero : GenState := ⟨0, 0⟩

/-- The single-pixel tensor exhibiting truncation: channel 0 holds 1.9,
and (1.9 * 0.26862954 + 0.48145466) * 255 = 252.92..., which truncates to
252 but rounds to 253. -/
def demoPixTensor : Tensor := ⟨[1, 3, 1, 1], [mkRat 19 10, 0, 0], false⟩

/- ------------------------------------------------------------------ -/
/- Helper lemmas -/
/- ------------------------------------------------------------------ -/

/-- Anything the tap captures during the no_grad forward pass carries a
cleared requiresGrad flag. -/
theorem noGradEval_rg (fwd : Tensor → Option Tensor) (x t : Tensor)
    (hf : noGradEval fwd x = some t) : t.requiresGrad = false := by
  unfold noGradEval at hf
  rcases hv : fwd x with _ | u
  · rw [hv] at hf
    exact Option.noConfusion hf
  · rw [hv] at hf
    simp only [Option.map_some'] at hf
    obtain rfl := Option.some.inj hf
    rfl

/-- The only error get_activation_value can raise is the IndexError from
out-of-range indexing. -/
theorem getActivationValue_error_eq (h : Option Tensor) (i : Option Nat) (e : VisError)
    (he : getActivationValue h i = .error e) : e = .indexOut := by
  unfold getActivationValue at he
  repeat' split at he
  all_goals
    first
      | exact Except.noConfusion he
      | exact (Except.error.inj he).symm

/-- When every capture the hook may hold is detached from the graph, the
extracted activation scalar does not require grad either. -/
theorem getActivationValue_ok_rg (h : Option Tensor) (i : Option Nat) (s : ScalarT)
    (hok : getActivationValue h i = .ok s)
    (hrg : ∀ t, h = some t → t.requiresGrad = false) : s.requiresGrad = false := by
  unfold getActivationValue at hok
  repeat' split at hok
  all_goals
    first
      | exact Except.noConfusion hok
      | (obtain rfl := Except.ok.inj hok; simp_all)

/-- As soon as the loop runs at least one iteration it stops with an error:
either the IndexError of out-of-range indexing, or the RuntimeError of
backward on a detached loss, because the no_grad forward can never hand the
hook an activation that requires grad. -/
theorem runLoop_pos_error (fwd : Tensor → Option Tensor) (i : Option Nat)
    (cfg : VisConfig) (n iter : Nat) (img : Tensor) (hookAct : Option Tensor)
    (hrg : ∀ t, hookAct = some t → t.requiresGrad = false) :
    ∃ e, runLoop fwd i cfg (n + 1) iter img hookAct = .error e ∧
      (e = VisError.noGrad ∨ e = VisError.indexOut) := by
  have hrg' : ∀ t,
      (match noGradEval fwd (normalizeT img) with
        | some u => some u
        | none => hookAct) = some t → t.requiresGrad = false := by
    intro t ht
    rcases hf : noGradEval fwd (normalizeT img) with _ | u
    · rw [hf] at ht
      exact hrg t ht
    · rw [hf] at ht
      obtain rfl := Option.some.inj ht
      exact noGradEval_rg fwd (normalizeT img) u hf
  rcases hv : getActivationValue
      (match noGradEval fwd (normalizeT img) with
        | some u => some u
        | none => hookAct) i with e | act
  · refine ⟨e, ?_, Or.inr (getActivationValue_error_eq _ _ _ hv)⟩
    simp only [runLoop]
    rw [hv]
  · have hfalse : act.requiresGrad = false := getActivationValue_ok_rg _ _ _ hv hrg'
    refine ⟨.noGrad, ?_, Or.inl rfl⟩
    simp only [runLoop]
    rw [hv]
    simp [hfalse]

/-- applyBlur only rewrites the data buffer. -/
theorem applyBlur_shape (t : Tensor) : (applyBlur t).shape = t.shape := by
  unfold applyBlur
  split <;> rfl

/-- A tensor the loop returns has the shape of the tensor it started
from: every per-iteration update only rewrites the data buffer. -/
theorem runLoop_ok_shape (fwd : Tensor → Option Tensor) (i : Option Nat)
    (cfg : VisConfig) :
    ∀ (n iter : Nat) (img : Tensor) (hookAct : Option Tensor) (t : Tensor),
      runLoop fwd i cfg n iter img hookAct = .ok t → t.shape = img.shape := by
  intro n
  induction n with
  | zero =>
    intro iter img hookAct t h
    simp only [runLoop] at h
    obtain rfl := Except.ok.inj h
    rfl
  | succ n ih =>
    intro iter img hookAct t h
    simp only [runLoop] at h
    split at h
    · exact Except.noConfusion h
    · split at h
      · have hshape := ih (iter + 1) _ _ t h
        rw [hshape]
        show (clampT (if (iter + 1) % cfg.blurEvery = 0
          then applyBlur (tvStep (adamStepModel cfg.learningRate img))
          else tvStep (adamStepModel cfg.learningRate img))).shape = img.shape
        unfold clampT
        split
        · exact applyBlur_shape _
        · rfl
      · exact Except.noConfusion h

/- ------------------------------------------------------------------ -/
/- Claim theorems -/
/- ------------------------------------------------------------------ -/

/-- C1: the claim says the forward evaluation up to the tapped layer stays
differentiable so that the gradient of the activation with respect to the
image is well-defined and reaches the optimizer.  The code contradicts it:
the forward pass runs inside with torch.no_grad(), so whatever the tap
captures is detached (first conjunct), and consequently every run that
resolves its layer and performs at least one iteration dies in the loop,
with the backward RuntimeError (or the IndexError of a bad index) instead
of ever updating the image. -/
theorem c1_no_grad_flow_bug (model : NetModule) (fwd : Tensor → Option Tensor)
    (path : List String) (idx : Nat) (cfg : VisConfig) (st : GenState)
    (hres : (getLayerByName model path).isSome) (hiter : 1 ≤ cfg.numIterations) :
    (∀ x t, noGradEval fwd x = some t → t.requiresGrad = false) ∧
    ∃ e, (generateImage model fwd path idx cfg st).1 = .error e ∧
      (e = VisError.noGrad ∨ e = VisError.indexOut) := by
  constructor
  · intro x t hf
    exact noGradEval_rg fwd x t hf
  · obtain ⟨k, hk⟩ : ∃ k, cfg.numIterations = k + 1 :=
      ⟨cfg.numIterations - 1, by omega⟩
    obtain ⟨m, hm⟩ := Option.isSome_iff_exists.mp hres
    obtain ⟨e, he, hor⟩ := runLoop_pos_error fwd (some idx) cfg k 0
      (torchRandn cfg.imageSize
        (match cfg.seed with | some s => manualSeed s | none => st.rng)).1 none
      (by intro t ht; exact Option.noConfusion ht)
    refine ⟨e, ?_, hor⟩
    simp only [generateImage, hm]
    rw [hk, he]

/-- Closed instance of the C1 theorem: the demo model resolves
visual.conv1, one iteration is requested, the tap would capture a rank-2
tensor that requires grad before no_grad strips it, and the call errors. -/
theorem c1_no_grad_flow_bug_witness :
    (∀ x t, noGradEval demoFwdR2 x = some t → t.requiresGrad = false) ∧
    ∃ e, (generateImage demoModel demoFwdR2 demoPath 0 cfgOne stZero).1 = .error e ∧
      (e = VisError.noGrad ∨ e = VisError.indexOut) :=
  c1_no_grad_flow_bug demoModel demoFwdR2 demoPath 0 cfgOne stZero (by decide) (by decide)

/-- C4: with a fixed seed, fixed network, fixed layer path, fixed unit and
fixed config, the outcome of generate_image is independent of the ambient
state two separate invocations start from: torch.manual_seed resets the
generator from the seed, and nothing else about the run reads ambient
state, so the outcomes (and in particular any raster buffers produced) are
bit-identical. -/
theorem c4_seeded_determinism (model : NetModule) (fwd : Tensor → Option Tensor)
    (path : List String) (idx : Nat) (cfg : VisConfig) (s : Nat) (st1 st2 : GenState)
    (hs : cfg.seed = some s) :
    (generateImage model fwd path idx cfg st1).1 = (generateImage model fwd path idx cfg st2).1 := by
  simp only [generateImage, hs]
  rcases h : getLayerByName model path with _ | m
  · rfl
  · rcases hr : runLoop fwd (some idx) cfg cfg.numIterations 0
        (torchRandn cfg.imageSize (manualSeed s)).1 none with e | tf <;>
      simp [hr]

/-- Closed instance of the C4 theorem at concrete inputs: two invocations
from unrelated ambient states agree. -/
theorem c4_seeded_determinism_witness :
    cfgZero.seed = some 0 ∧
    (generateImage demoModel demoFwdNone demoPath 0 cfgZero ⟨5, 3⟩).1 =
      (generateImage demoModel demoFwdNone demoPath 0 cfgZero ⟨99, 7⟩).1 :=
  ⟨rfl, c4_seeded_determinism demoModel demoFwdNone demoPath 0 cfgZero 0 ⟨5, 3⟩ ⟨99, 7⟩ rfl⟩

/-- C7: the forward tap is removed when the run ends on every path.  The
try/finally of the source is modelled by the install counter: a run that
resolves its layer increments it on register_forward_hook and decrements it
in the finally block whatever the loop produced, and a run that fails
resolution never installs, so the ambient hook count after any call equals
the count before it and a subsequent call finds no tap installed. -/
theorem c7_tap_always_released (model : NetModule) (fwd : Tensor → Option Tensor)
    (path : List String) (idx : Nat) (cfg : VisConfig) (st : GenState) :
    ((generateImage model fwd path idx cfg st).2).installCount = st.installCount := by
  simp only [generateImage]
  rcases h : getLayerByName model path with _ | m
  · rfl
  · rcases hr : runLoop fwd (some idx) cfg cfg.numIterations 0
        (torchRandn cfg.imageSize
          (match cfg.seed with | some s => manualSeed s | none => st.rng)).1 none with e | tf <;>
      simp [hr]

/-- Indexing a rank-2 capture with an index at or beyond the feature axis
size raises the IndexError. -/
theorem getActivationValue_rank2_oob (t : Tensor) (b f idx : Nat)
    (hshape : t.shape = [b, f]) (hidx : f ≤ idx) :
    getActivationValue (some t) (some idx) = .error .indexOut := by
  obtain ⟨sh, d, rg⟩ := t
  simp only at hshape
  subst hshape
  simp only [getActivationValue]
  rw [if_neg (by omega)]

/-- When the first extraction of the loop raises, the loop raises the same
error. -/
theorem runLoop_first_error (fwd : Tensor → Option Tensor) (i : Option Nat)
    (cfg : VisConfig) (n iter : Nat) (img : Tensor) (hookAct : Option Tensor)
    (e : VisError)
    (hact : getActivationValue
      (match noGradEval fwd (normalizeT img) with
        | some u => some u
        | none => hookAct) i = .error e) :
    runLoop fwd i cfg (n + 1) iter img hookAct = .error e := by
  simp only [runLoop]
  rw [hact]

/-- When the first extraction of the loop yields a detached scalar, the
loop raises the backward RuntimeError. -/
theorem runLoop_first_noGrad (fwd : Tensor → Option Tensor) (i : Option Nat)
    (cfg : VisConfig) (n iter : Nat) (img : Tensor) (hookAct : Option Tensor)
    (act : ScalarT)
    (hact : getActivationValue
      (match noGradEval fwd (normalizeT img) with
        | some u => some u
        | none => hookAct) i = .ok act)
    (hrg : act.requiresGrad = false) :
    runLoop fwd i cfg (n + 1) iter img hookAct = .error .noGrad := by
  simp only [runLoop]
  rw [hact]
  simp [hrg]

/-- C2 counterexample: the claim says InvalidParameter is raised for
iterationCount 0, for imageSize 0, and for a unit index at or beyond the
axis size.  This single call violates all three at once (0 iterations,
size 0, index 5 against axis size 2) and returns a raster instead of
raising anything. -/
theorem c2_no_validation_counterexample :
    (generateImage demoModel demoFwdR2 demoPath 5 cfgZero stZero).1 = .ok [] := by
  decide

/-- C2 amended: generate_image validates nothing.  A zero-iteration run
returns an image whatever the size and unit index; an out-of-range unit
index surfaces only inside the loop, as the IndexError of tensor indexing
on the captured activation, not as a pre-loop InvalidParameter. -/
theorem c2_amended_no_validation (model : NetModule) (fwd : Tensor → Option Tensor)
    (path : List String) (idx : Nat) (cfg : VisConfig) (st : GenState) (b f : Nat) :
    (cfg.numIterations = 0 → (getLayerByName model path).isSome →
      ∃ img, (generateImage model fwd path idx cfg st).1 = .ok img) ∧
    (∀ t0 : Tensor, (∀ x, fwd x = some t0) → t0.shape = [b, f] → f ≤ idx →
      1 ≤ cfg.numIterations → (getLayerByName model path).isSome →
      (generateImage model fwd path idx cfg st).1 = .error .indexOut) := by
  constructor
  · intro hk hres
    obtain ⟨m, hm⟩ := Option.isSome_iff_exists.mp hres
    refine ⟨tensorToImage (torchRandn cfg.imageSize
      (match cfg.seed with | some s => manualSeed s | none => st.rng)).1, ?_⟩
    simp only [generateImage, hm, hk]
    simp only [runLoop]
  · intro t0 hfwd hshape hidx hiter hres
    obtain ⟨k, hk⟩ : ∃ k, cfg.numIterations = k + 1 :=
      ⟨cfg.numIterations - 1, by omega⟩
    obtain ⟨m, hm⟩ := Option.isSome_iff_exists.mp hres
    have hng : ∀ x : Tensor,
        noGradEval fwd x = some { t0 with requiresGrad := false } := by
      intro x
      unfold noGradEval
      rw [hfwd]
      rfl
    have hloop : runLoop fwd (some idx) cfg (k + 1) 0
        (torchRandn cfg.imageSize
          (match cfg.seed with | some s => manualSeed s | none => st.rng)).1 none =
        .error .indexOut := by
      refine runLoop_first_error _ _ _ _ _ _ _ _ ?_
      rw [hng]
      exact getActivationValue_rank2_oob _ b f idx hshape hidx
    simp only [generateImage, hm]
    rw [hk, hloop]

/-- Closed instance of the C2 amended theorem: the zero-iteration call of
the counterexample indeed produces an image, and the same call with one
iteration surfaces the out-of-range unit index 5 (axis size 2) as the
in-loop IndexError. -/
theorem c2_amended_witness :
    (∃ img, (generateImage demoModel demoFwdR2 demoPath 5 cfgZero stZero).1 = .ok img) ∧
    (generateImage demoModel demoFwdR2 demoPath 5 cfgOne stZero).1 = .error .indexOut :=
  ⟨(c2_amended_no_validation demoModel demoFwdR2 demoPath 5 cfgZero stZero 1 2).1
      rfl (by decide),
    (c2_amended_no_validation demoModel demoFwdR2 demoPath 5 cfgOne stZero 1 2).2
      demoT2 (fun _ => rfl) rfl (by decide) (by decide) (by decide)⟩

/-- C3 counterexample: the claim says a tapped output of rank other than 4
or 2 makes the run fail with UnsupportedLayerShape rather than produce an
activation scalar.  On the rank-3 capture demoT3 (the shape a transformer
block actually emits) the extraction succeeds and produces the mean of all
elements, ignoring even the absurd unit index 5. -/
theorem c3_rank3_counterexample :
    getActivationValue (some demoT3) (some 5) = .ok ⟨3, false⟩ := by
  decide

/-- C3 amended: for a capture whose rank is neither 4 nor 2,
get_activation_value does not fail: both shape branches fall through and
the source returns the mean over all elements, the unit index being
ignored. -/
theorem c3_amended_other_rank_mean (t : Tensor) (i : Option Nat)
    (h4 : t.shape.length ≠ 4) (h2 : t.shape.length ≠ 2) :
    getActivationValue (some t) i = .ok ⟨qmean t.data, t.requiresGrad⟩ := by
  obtain ⟨sh, d, rg⟩ := t
  simp only at h4 h2
  simp only [getActivationValue]
  split
  · simp_all
  · simp_all
  · rfl

/-- Closed instance of the C3 amended theorem at the rank-3 capture. -/
theorem c3_amended_witness :
    getActivationValue (some demoT3) (some 5) =
      .ok ⟨qmean demoT3.data, demoT3.requiresGrad⟩ :=
  c3_amended_other_rank_mean demoT3 (some 5) (by decide) (by decide)

/-- C10 counterexample: the claim says a run whose resolved layer is never
executed by the forward pass proceeds on the 0.0 default and returns an
image.  With one iteration and a forward that never runs the hooked layer,
the call fails with the backward RuntimeError instead. -/
theorem c10_unexecuted_counterexample :
    (generateImage demoModel demoFwdNone demoPath 0 cfgOne stZero).1 = .error .noGrad := by
  decide

/-- C10 amended: when the tap never fires, the extracted activation indeed
defaults to the 0.0 constant, but that constant has no gradient path, so
any run with at least one iteration fails at loss.backward() instead of
proceeding; only a zero-iteration run returns an image. -/
theorem c10_default_zero_backward_fails (model : NetModule) (fwd : Tensor → Option Tensor)
    (path : List String) (idx : Nat) (cfg : VisConfig) (st : GenState)
    (hfwd : ∀ x, fwd x = none) (hres : (getLayerByName model path).isSome)
    (hiter : 1 ≤ cfg.numIterations) :
    getActivationValue none (some idx) = .ok ⟨0, false⟩ ∧
    (generateImage model fwd path idx cfg st).1 = .error .noGrad := by
  refine ⟨rfl, ?_⟩
  obtain ⟨k, hk⟩ : ∃ k, cfg.numIterations = k + 1 :=
    ⟨cfg.numIterations - 1, by omega⟩
  obtain ⟨m, hm⟩ := Option.isSome_iff_exists.mp hres
  have hng : ∀ x : Tensor, noGradEval fwd x = none := by
    intro x
    unfold noGradEval
    rw [hfwd]
    rfl
  have hloop : runLoop fwd (some idx) cfg (k + 1) 0
      (torchRandn cfg.imageSize
        (match cfg.seed with | some s => manualSeed s | none => st.rng)).1 none =
      .error .noGrad := by
    refine runLoop_first_noGrad _ _ _ _ _ _ _ ⟨0, false⟩ ?_ rfl
    rw [hng]
    rfl
  simp only [generateImage, hm]
  rw [hk, hloop]

/-- Closed instance of the C10 amended theorem. -/
theorem c10_default_zero_witness :
    getActivationValue none (some 0) = .ok ⟨0, false⟩ ∧
    (generateImage demoModel demoFwdNone demoPath 0 cfgOne stZero).1 = .error .noGrad :=
  c10_default_zero_backward_fails demoModel demoFwdNone demoPath 0 cfgOne stZero
    (fun _ => rfl) (by decide) (by decide)

/-- The clamp keeps values non-negative. -/
theorem clamp01_nonneg (v : ℚ) : 0 ≤ clamp01 v :=
  le_min (by norm_num) (le_max_left 0 v)

/-- The clamp keeps values at most one. -/
theorem clamp01_le_one (v : ℚ) : clamp01 v ≤ 1 := min_le_left 1 _

/-- Truncation of a rational at most 255 yields a byte value. -/
theorem truncByte_le_255 (y : ℚ) (hy : y ≤ 255) : truncByte y ≤ 255 := by
  have hdenpos : 0 < y.den := y.den_pos
  have hden : (0 : ℚ) < (y.den : ℚ) := by exact_mod_cast hdenpos
  have hdz : (y.den : ℚ) ≠ 0 := ne_of_gt hden
  have hq : (y.num : ℚ) = y * (y.den : ℚ) := (div_eq_iff hdz).mp (Rat.num_div_den y)
  have h1 : (y.num : ℚ) ≤ 255 * (y.den : ℚ) := by
    rw [hq]
    exact mul_le_mul_of_nonneg_right hy (le_of_lt hden)
  have h2 : y.num ≤ 255 * (y.den : ℤ) := by exact_mod_cast h1
  have h3 : y.num.toNat ≤ 255 * y.den := by omega
  calc truncByte y = y.num.toNat / y.den := rfl
    _ ≤ 255 * y.den / y.den := Nat.div_le_div_right h3
    _ = 255 := Nat.mul_div_cancel _ hdenpos

/-- Every byte _tensor_to_image emits is at most 255. -/
theorem pixelByte_le_255 (v : ℚ) (c : Nat) : pixelByte v c ≤ 255 := by
  refine truncByte_le_255 _ ?_
  have h := clamp01_le_one (v * clipStd c + clipMean c)
  linarith

/-- C5 counterexample: the claim says the 8-bit conversion rounds; the
source truncates through astype(np.uint8).  On the single-pixel tensor with
channel values (1.9, 0, 0) the source conversion yields (252, 116, 104)
while the rounding conversion the claim describes yields (253, 117, 104). -/
theorem c5_trunc_not_round_counterexample :
    tensorToImage demoPixTensor ≠ tensorToImageRoundedSpec demoPixTensor ∧
    tensorToImage demoPixTensor = [252, 116, 104] ∧
    tensorToImageRoundedSpec demoPixTensor = [253, 117, 104] := by
  decide

/-- C5 amended: whenever generate_image returns a raster, that raster is
produced by exactly one final conversion of the loop's final tensor -
denormalize with the same per-channel constants, clamp to the unit
interval, scale by 255 and truncate - and it holds exactly
imageSize * imageSize * 3 byte values, each in [0, 255]. -/
theorem c5_final_conversion (model : NetModule) (fwd : Tensor → Option Tensor)
    (path : List String) (idx : Nat) (cfg : VisConfig) (st : GenState)
    (img : List Nat)
    (h : (generateImage model fwd path idx cfg st).1 = .ok img) :
    img.length = cfg.imageSize * cfg.imageSize * 3 ∧
    (∀ b ∈ img, b ≤ 255) ∧
    ∃ tf : Tensor, tf.shape = [1, 3, cfg.imageSize, cfg.imageSize] ∧
      img = tensorToImage tf := by
  simp only [generateImage] at h
  rcases hm : getLayerByName model path with _ | m
  · rw [hm] at h
    exact absurd h (by simp)
  · rw [hm] at h
    rcases hr : runLoop fwd (some idx) cfg cfg.numIterations 0
        (torchRandn cfg.imageSize
          (match cfg.seed with | some s => manualSeed s | none => st.rng)).1 none
      with e | tf
    · rw [hr] at h
      exact absurd h (by simp)
    · rw [hr] at h
      simp only at h
      obtain rfl : img = tensorToImage tf := (Except.ok.inj h).symm
      have hshape : tf.shape = [1, 3, cfg.imageSize, cfg.imageSize] :=
        runLoop_ok_shape fwd (some idx) cfg cfg.numIterations 0 _ none tf hr
      refine ⟨?_, ?_, tf, hshape, rfl⟩
      · unfold tensorToImage
        rw [hshape]
        simp [Nat.mul_comm, Nat.mul_assoc, Nat.mul_left_comm]
      · intro b hb
        unfold tensorToImage at hb
        rw [hshape] at hb
        simp only [List.mem_map] at hb
        obtain ⟨k, _, hk⟩ := hb
        rw [← hk]
        exact pixelByte_le_255 _ _

/-- Closed instance of the C5 amended theorem: a one-pixel zero-iteration
run returns a raster of exactly three bytes, all at most 255. -/
theorem c5_final_conversion_witness :
    ∃ img, (generateImage demoModel demoFwdR2 demoPath 0 cfgPix stZero).1 = .ok img ∧
      img.length = cfgPix.imageSize * cfgPix.imageSize * 3 ∧ ∀ b ∈ img, b ≤ 255 := by
  have hne : (generateImage demoModel demoFwdR2 demoPath 0 cfgPix stZero).1.isOk = true := by
    decide
  rcases h : (generateImage demoModel demoFwdR2 demoPath 0 cfgPix stZero).1 with e | img
  · rw [h] at hne
    exact Bool.noConfusion hne
  · obtain ⟨h1, h2, -⟩ :=
      c5_final_conversion demoModel demoFwdR2 demoPath 0 cfgPix stZero img h
    exact ⟨img, rfl, h1, h2⟩

/-- A failed component kills the rest of the attribute walk. -/
theorem foldl_resolve_none (p : List String) :
    p.foldl (fun acc part => acc.bind (fun cur => getChild cur part)) none = none := by
  induction p with
  | nil => rfl
  | cons n q ih => exact ih

/-- The attribute walk processes one component at a time. -/
theorem getLayerByName_cons (m : NetModule) (n : String) (p : List String) :
    getLayerByName m (n :: p) =
      match getChild m n with
      | some c => getLayerByName c p
      | none => none := by
  have h1 : getLayerByName m (n :: p) =
      p.foldl (fun acc part => acc.bind (fun cur => getChild cur part)) (getChild m n) := rfl
  rw [h1]
  rcases h : getChild m n with _ | c
  · exact foldl_resolve_none p
  · rfl

/-- With duplicate-free child names, the first hit of the name scan is the
registered pair itself. -/
theorem find_eq_of_nodup (cs : List (String × NetModule)) (n : String) (c : NetModule)
    (hnd : (cs.map Prod.fst).Nodup) (hmem : (n, c) ∈ cs) :
    cs.find? (fun pr => pr.1 == n) = some (n, c) := by
  induction cs with
  | nil => cases hmem
  | cons hd tl ih =>
    rcases hd with ⟨n', c'⟩
    rw [List.map_cons, List.nodup_cons] at hnd
    rcases List.mem_cons.mp hmem with heq | hmem'
    · obtain ⟨rfl, rfl⟩ := Prod.mk.injEq .. |>.mp heq.symm
      simp [List.find?_cons]
    · have hn : n ∈ tl.map Prod.fst := List.mem_map.mpr ⟨(n, c), hmem', rfl⟩
      have hne : (n' == n) = false := by
        rcases hbe : n' == n with _ | _
        · rfl
        · exact absurd (beq_iff_eq.mp hbe ▸ hn) hnd.1
      rw [List.find?_cons, hne]
      exact ih hnd.2 hmem'

/-- A resolved child is a registered child. -/
theorem getChild_mem (m : NetModule) (n : String) (c : NetModule)
    (h : getChild m n = some c) : (n, c) ∈ m.children := by
  unfold getChild at h
  rcases hf : m.children.find? (fun pr => pr.1 == n) with _ | pr
  · rw [hf] at h
    exact Option.noConfusion h
  · rw [hf] at h
    simp only [Option.map_some'] at h
    obtain rfl := Option.some.inj h
    have hmem := List.mem_of_find?_eq_some hf
    have hpred : pr.1 = n := by simpa using List.find?_some hf
    rcases pr with ⟨n', c'⟩
    simp only at hpred ⊢
    subst hpred
    exact hmem

/-- Membership in the descendant list of a child list decomposes into a
child and a residual path. -/
theorem mem_namedModulesList (cs : List (String × NetModule)) (p : List String)
    (m : NetModule) (h : (p, m) ∈ namedModulesList cs) :
    ∃ n c q, (n, c) ∈ cs ∧ p = n :: q ∧ (q, m) ∈ namedModules c := by
  induction cs with
  | nil => cases h
  | cons hd tl ih =>
    rcases hd with ⟨n', c'⟩
    simp only [namedModulesList] at h
    rw [List.mem_append] at h
    rcases h with h | h
    · rw [List.mem_map] at h
      obtain ⟨⟨q, m'⟩, hq, heq⟩ := h
      obtain ⟨rfl, rfl⟩ := Prod.mk.injEq .. |>.mp heq.symm
      exact ⟨n', c', q, List.mem_cons_self _ _, rfl, hq⟩
    · obtain ⟨n, c, q, hmem, rfl, hq⟩ := ih h
      exact ⟨n, c, q, List.mem_cons_of_mem _ hmem, rfl, hq⟩

/-- Well-formedness descends to every member of a child list. -/
theorem wfModuleList_mem (cs : List (String × NetModule))
    (h : wfModuleList cs = true) : ∀ nc ∈ cs, wfModule nc.2 = true := by
  induction cs with
  | nil =>
    intro nc hmem
    cases hmem
  | cons hd tl ih =>
    rcases hd with ⟨n, c⟩
    simp only [wfModuleList, Bool.and_eq_true] at h
    intro nc hmem
    rcases List.mem_cons.mp hmem with rfl | hmem'
    · exact h.1
    · exact ih h.2 nc hmem'

/-- Well-formedness descends through getattr. -/
theorem wfModule_child (m : NetModule) (n : String) (c : NetModule)
    (hwf : wfModule m = true) (h : getChild m n = some c) : wfModule c = true := by
  rcases m with ⟨i, cs⟩
  have hmem := getChild_mem _ n c h
  have hlist : wfModuleList cs = true := by
    simp only [wfModule, Bool.and_eq_true] at hwf
    exact hwf.2
  exact wfModuleList_mem cs hlist (n, c) hmem

/-- Every path named_modules produces for a well-formed tree resolves by
the attribute walk from the same tree. -/
theorem resolve_of_mem_namedModules (p : List String) :
    ∀ (v m : NetModule), wfModule v = true →
      (p, m) ∈ namedModules v → (getLayerByName v p).isSome = true := by
  induction p with
  | nil =>
    intro v m hwf hmem
    rfl
  | cons n q ih =>
    intro v m hwf hmem
    rcases v with ⟨i, cs⟩
    simp only [namedModules] at hmem
    rcases List.mem_cons.mp hmem with heq | hmem'
    · exact absurd heq (by simp)
    · obtain ⟨n', c, q', hmemc, heq, hq⟩ := mem_namedModulesList cs _ m hmem'
      obtain ⟨rfl, rfl⟩ : n = n' ∧ q = q' := List.cons.injEq .. |>.mp heq
      have hsplit : (cs.map Prod.fst).Nodup ∧ wfModuleList cs = true := by
        simpa [wfModule, Bool.and_eq_true, decide_eq_true_eq] using hwf
      have hfind : cs.find? (fun pr => pr.1 == n) = some (n, c) :=
        find_eq_of_nodup cs n c hsplit.1 hmemc
      have hchild : getChild (.mk i cs) n = some c := by
        simp [getChild, NetModule.children, hfind]
      rw [getLayerByName_cons, hchild]
      exact ih c m (wfModuleList_mem cs hsplit.2 (n, c) hmemc) hq

/-- C6 counterexample: the claim says LayerNotFound is raised for exactly
the paths absent from listLayers().  The path visual is absent from the
table (the table only lists strict descendants of the visual trunk,
prefixed visual.), yet the attribute walk resolves it and the call
proceeds to return an image rather than raise. -/
theorem c6_unlisted_path_resolves_counterexample :
    (["visual"] ∉ getLayerNames demoModel) ∧
    getLayerByName demoModel ["visual"] = some demoVisual ∧
    (generateImage demoModel demoFwdR2 ["visual"] 5 cfgZero stZero).1 = .ok [] :=
  ⟨by decide, rfl, by decide⟩

/-- C6 amended: the ValueError of generate_image is raised exactly when the
attribute walk fails, which is implied by, but not equivalent to, absence
from listLayers(): every listed path of a well-formed network resolves,
while some unlisted paths (the visual trunk itself, text-branch paths)
resolve as well and raise nothing. -/
theorem c6_amended_resolution (model : NetModule) (fwd : Tensor → Option Tensor)
    (idx : Nat) (cfg : VisConfig) (st : GenState) :
    (∀ path, getLayerByName model path = none →
      (generateImage model fwd path idx cfg st).1 = .error .layerNotFound) ∧
    (wfModule model = true →
      ∀ p ∈ getLayerNames model, (getLayerByName model p).isSome = true) := by
  constructor
  · intro path hnone
    simp only [generateImage, hnone]
  · intro hwf p hp
    unfold getLayerNames extractLayers at hp
    rcases hv : getChild model "visual" with _ | vis
    · rw [hv] at hp
      cases hp
    · rw [hv] at hp
      rw [List.map_map, List.mem_map] at hp
      obtain ⟨pm, hpmmem, heq⟩ := hp
      rw [List.mem_filter] at hpmmem
      simp only [Function.comp] at heq
      subst heq
      rw [getLayerByName_cons, hv]
      exact resolve_of_mem_namedModules pm.1 vis pm.2
        (wfModule_child model "visual" vis hwf hv) (by simpa using hpmmem.1)

/-- Closed instance of the C6 amended theorem: an unresolvable text path
raises the not-found ValueError, and the listed path visual.conv1
resolves. -/
theorem c6_amended_witness :
    (generateImage demoModel demoFwdR2 ["textual"] 0 cfgZero stZero).1 =
      .error .layerNotFound ∧
    (getLayerByName demoModel ["visual", "conv1"]).isSome = true :=
  ⟨(c6_amended_resolution demoModel demoFwdR2 0 cfgZero stZero).1 ["textual"] rfl,
   (c6_amended_resolution demoModel demoFwdR2 0 cfgZero stZero).2 (by decide)
     ["visual", "conv1"] (by decide)⟩

/-- C8 counterexample: the claim says the engine never mutates the supplied
network, every attribute and mode included, even on construction.  The
demo model arrives in training mode; construction of the engine flips it
to eval mode (and clears parameter requires_grad flags), so the network
after construction differs from the network before it. -/
theorem c8_init_mutates_counterexample :
    fvInit demoModel ≠ demoModel ∧
    (fvInit demoModel).info.training = false ∧
    demoModel.info.training = true := by
  refine ⟨?_, rfl, rfl⟩
  intro h
  have h2 := congrArg (fun m => m.info.training) h
  exact absurd h2 (by decide)

/-- C8 amended: construction of the engine mutates exactly the training
flags and the parameter requires_grad flags of the supplied network - it
puts every module into eval mode and freezes every parameter - and
changes nothing else: erasing those two attributes from the network before
and after construction yields identical trees.  generate_image itself
reads the network but never writes it. -/
theorem c8_init_frame :
    ∀ m : NetModule,
      clearMutables (fvInit m) = clearMutables m ∧ allFrozen (fvInit m) = true :=
  fvInit.induct
    (fun m => clearMutables (fvInit m) = clearMutables m ∧ allFrozen (fvInit m) = true)
    (fun cs => clearMutablesList (fvInitList cs) = clearMutablesList cs ∧
      allFrozenList (fvInitList cs) = true)
    (fun i cs ih => by
      constructor
      · simp [fvInit, clearMutables, ih.1, List.map_map]
      · simp [fvInit, allFrozen, ih.2, List.all_map])
    ⟨rfl, rfl⟩
    (fun n c rest ihc ihrest => by
      constructor
      · simp [fvInitList, clearMutablesList, ihc.1, ihrest.1]
      · simp [fvInitList, allFrozenList, ihc.2, ihrest.2])

/-- The body of get_neuron_names once the layer is resolved. -/
theorem neuronNamesOf_eq_spec (info : LayerMeta)
    (hrep : layerRepresentable info = true) :
    neuronNamesOf info = listUnitsSpec info := by
  rcases info with ⟨kind, oF, oC, wS, tr, pg⟩
  simp only [layerRepresentable] at hrep
  rcases kind <;> rcases oF with _ | f <;> rcases oC with _ | ch <;>
    rcases wS with _ | ⟨_ | ⟨d, ws⟩⟩ <;>
    simp_all [neuronNamesOf, listUnitsSpec, declaredAxisSize]

/-- C9: for a known layer path, listUnits is exactly the sequence the spec
describes - as many names as the declared output-axis size, taking
out_features, out_channels, or the weight's leading dimension in that
priority order, named neuron_i for dense layers, channel_i for
convolutional layers, and unit_i capped at 768 entries for anything else -
and for an unknown path it is empty rather than an error.  The
representability hypothesis records the attribute combinations PyTorch
layers actually present. -/
theorem c9_list_units (layers : List (List String × NetModule)) (path : List String) :
    (inspGetLayer layers path = none → getNeuronNames layers path = []) ∧
    (∀ lay, inspGetLayer layers path = some lay →
      layerRepresentable lay.info = true →
      getNeuronNames layers path = listUnitsSpec lay.info) := by
  constructor
  · intro h
    unfold getNeuronNames
    rw [h]
  · intro lay h hrep
    unfold getNeuronNames
    rw [h]
    exact neuronNamesOf_eq_spec lay.info hrep

/-- Closed instance of the C9 theorem on the demo inspector table: an
unknown path lists nothing, and the conv layer lists channel-named units
matching the spec description (here channel_0 and channel_1). -/
theorem c9_list_units_witness :
    getNeuronNames (extractLayers demoModel) ["nope"] = [] ∧
    getNeuronNames (extractLayers demoModel) ["visual", "conv1"] =
      listUnitsSpec demoConv.info ∧
    listUnitsSpec demoConv.info = ["channel_0", "channel_1"] :=
  ⟨(c9_list_units (extractLayers demoModel) ["nope"]).1 rfl,
   (c9_list_units (extractLayers demoModel) ["visual", "conv1"]).2 demoConv rfl (by decide),
   by decide⟩

end Clipthing
